import Mathlib

/-!
Shallow embedding of the language-service bridge in `cli/lsp/tsc.rs`
(the TypeScript <-> LSP bridge of the Deno CLI), together with proofs
about its specifier normalization, asset registry, host request loop,
and response translators.

Modelling conventions:
* Rust `String`/`&str` become Lean `String`; `u32` byte offsets become `Nat`
  (no arithmetic here ever approaches overflow and none of the verified
  properties depend on wrap-around).
* `HashMap<K, V>` becomes an association list with `HashMap`-style
  insert/lookup (`insertAssoc` replaces the value of an existing key).
* `ModuleSpecifier` (`deno_core::url::Url`) is kept as its string form.
  URL parsing lives outside this repository; see `urlParse`.
* External handles that no verified claim reads (performance recorder,
  state snapshot, cancellation token, HTTP cache) are omitted from the
  embedded `State`; a comment marks each omission.
-/

namespace DenoTsc

/-- A quotation-mark character (U+0022), used by the bracket-accessor
regular expression below. -/
def quoteChar : Char := Char.ofNat 34

/-- An apostrophe character (U+0027), used by the bracket-accessor
regular expression below. -/
def aposChar : Char := Char.ofNat 39

/-- Model of `str::starts_with`, computed on character lists (the
byte-offset implementation of `String.startsWith` does not reduce in
the kernel). -/
def strStartsWith (s pre : String) : Bool :=
  pre.toList.isPrefixOf s.toList

/-- Model of `str::ends_with`, computed on character lists. -/
def strEndsWith (s suf : String) : Bool :=
  suf.toList.isSuffixOf s.toList

/-- First-match lookup in an association list; models `HashMap::get`
(keys are kept unique by `insertAssoc`). -/
def lookupAssoc {α : Type} (k : String) : List (String × α) → Option α
  | [] => none
  | (k2, v) :: rest => if k2 = k then some v else lookupAssoc k rest

/-- `HashMap::insert`: replace the value stored under an existing key,
otherwise add the binding. -/
def insertAssoc {α : Type} (k : String) (v : α) : List (String × α) → List (String × α)
  | [] => [(k, v)]
  | (k2, v2) :: rest =>
    if k2 = k then (k, v) :: rest else (k2, v2) :: insertAssoc k v rest

/-- Fuel-indexed core of `rustReplace`.  The fuel is consumed one unit per
examined character, so fuel equal to the input length is always enough
for a non-empty pattern; the `0` case is unreachable then. -/
def replaceListFuel (pat rep : List Char) : Nat → List Char → List Char
  | _, [] => []
  | 0, l => l
  | fuel + 1, c :: cs =>
    if pat ≠ [] ∧ pat.isPrefixOf (c :: cs) then
      rep ++ replaceListFuel pat rep fuel ((c :: cs).drop pat.length)
    else
      c :: replaceListFuel pat rep fuel cs

/-- Model of Rust `str::replace(pat, rep)` for a non-empty pattern:
replace every non-overlapping occurrence, scanning left to right and
never rescanning the replacement text. -/
def rustReplace (s pat rep : String) : String :=
  String.mk (replaceListFuel pat.toList rep.toList s.toList.length s.toList)

/-- `serde_json::Value`: untyped JSON carried between the host and the
analyzer.  Numbers are modelled as integers; no verified claim inspects
a numeric payload. -/
inductive Value where
  | null : Value
  | bool : Bool → Value
  | num : Int → Value
  | str : String → Value
  | arr : List Value → Value
  | obj : List (String × Value) → Value

/-- `Value::as_object`: the field list of an object, `none` otherwise. -/
def Value.asObject : Value → Option (List (String × Value))
  | .obj fields => some fields
  | _ => none

/-- `Value::as_bool`: the boolean payload, `none` otherwise. -/
def Value.asBool : Value → Option Bool
  | .bool b => some b
  | _ => none

/-- `Response` (`tsc.rs`): the payload the analyzer hands to the
`respond` op.  The `id` field is commented out in the source. -/
structure Response where
  data : Value

/-- `State` (`tsc.rs`): the host-thread-local state the ops read.  The
`performance`, `state_snapshot` and `token` handles are external to the
verified core and are omitted here; no embedded operation reads them. -/
structure State where
  lastId : Nat
  response : Option Response
  specifiers : List (String × String)

/-- `State::new`: `last_id` starts at 1, no pending response, empty
specifier map. -/
def State.new : State :=
  { lastId := 1, response := none, specifiers := [] }

/-- Modelled from the spec: URL parsing (`deno_core::ModuleSpecifier`,
`Url::parse`) is not part of this repository.  §3 of the spec only uses
absolute URIs of the shapes `file://…`, `http(s)://…` and `asset:///…`,
on whose canonical spellings parsing round-trips to the same string, so
we model parsing as the identity on strings carrying one of those
prefixes and failure otherwise. -/
def urlParse (s : String) : Option String :=
  if strStartsWith s "file:///" || strStartsWith s "http://" ||
      strStartsWith s "https://" || strStartsWith s "asset:///" then
    some s
  else
    none

/-- `State::denormalize_specifier`: restore the original spelling of a
normalized specifier if one was memoized, else the plain string form. -/
def State.denormalizeSpecifier (st : State) (specifier : String) : String :=
  (lookupAssoc specifier st.specifiers).getD specifier

/-- `State::normalize_specifier`: collapse `.d.ts.d.ts` to `.d.ts`,
memoize `normalized → original` when the two differ, then parse. -/
def State.normalizeSpecifier (st : State) (specifier : String) :
    Option String × State :=
  let specifierStr := rustReplace specifier ".d.ts.d.ts" ".d.ts"
  let st' :=
    if specifierStr ≠ specifier then
      { st with specifiers := insertAssoc specifierStr specifier st.specifiers }
    else
      st
  (urlParse specifierStr, st')

/-- `ScriptElementKind` (`tsc.rs`): the closed set of element kinds the
analyzer reports (serde names omitted; the Lean constructor names are
the Rust variant names). -/
inductive ScriptElementKind where
  | unknown
  | warning
  | keyword
  | scriptElement
  | moduleElement
  | classElement
  | localClassElement
  | interfaceElement
  | typeElement
  | enumElement
  | enumMemberElement
  | variableElement
  | localVariableElement
  | functionElement
  | localFunctionElement
  | memberFunctionElement
  | memberGetAccessorElement
  | memberSetAccessorElement
  | memberVariableElement
  | constructorImplementationElement
  | callSignatureElement
  | indexSignatureElement
  | constructSignatureElement
  | parameterElement
  | typeParameterElement
  | primitiveType
  | label
  | alias
  | constElement
  | letElement
  | directory
  | externalModuleName
  | jsxAttribute
  | string
  | link
  | linkName
  | linkText
  deriving DecidableEq, Repr

/-- `TextSpan` (`tsc.rs`): `{ start, length }` in analyzer byte
coordinates. -/
structure TextSpan where
  start : Nat
  length : Nat
  deriving DecidableEq, Repr

/-- `NavigationTree` (`tsc.rs`): the tree of navigation items the
analyzer returns for a file. -/
inductive NavigationTree where
  | mk
    (text : String)
    (kind : ScriptElementKind)
    (kindModifiers : String)
    (spans : List TextSpan)
    (nameSpan : Option TextSpan)
    (childItems : Option (List NavigationTree))

def NavigationTree.text : NavigationTree → String
  | ⟨t, _, _, _, _, _⟩ => t

def NavigationTree.kind : NavigationTree → ScriptElementKind
  | ⟨_, k, _, _, _, _⟩ => k

def NavigationTree.kindModifiers : NavigationTree → String
  | ⟨_, _, m, _, _, _⟩ => m

def NavigationTree.spans : NavigationTree → List TextSpan
  | ⟨_, _, _, s, _, _⟩ => s

def NavigationTree.nameSpan : NavigationTree → Option TextSpan
  | ⟨_, _, _, _, n, _⟩ => n

def NavigationTree.childItems : NavigationTree → Option (List NavigationTree)
  | ⟨_, _, _, _, _, c⟩ => c

/-- Modelled from the spec: `LineIndex` (`super::text`, not under
`src/`).  §4.1 makes it a pure one-pass derivation of the document
text, so we record only the text it was built from, which determines
the index. -/
structure LineIndex where
  ofText : String
  deriving DecidableEq, Repr

/-- `AssetDocumentInner`/`AssetDocument` (`tsc.rs`): an in-memory
asset with its text, derived line index and optionally cached
navigation tree. -/
structure AssetDocument where
  specifier : String
  text : String
  lineIndex : LineIndex
  maybeNavigationTree : Option NavigationTree

/-- `AssetDocument::new`: derive the line index from the text; no
navigation tree yet. -/
def AssetDocument.new (specifier text : String) : AssetDocument :=
  { specifier, text, lineIndex := ⟨text⟩, maybeNavigationTree := none }

/-- `AssetDocument::with_navigation_tree`: copy the document, setting
the navigation-tree slot. -/
def AssetDocument.withNavigationTree (d : AssetDocument)
    (tree : NavigationTree) : AssetDocument :=
  { d with maybeNavigationTree := some tree }

/-- `AssetsMap = HashMap<ModuleSpecifier, AssetDocument>`. -/
abbrev AssetsMap : Type := List (String × AssetDocument)

/-- Update the value stored under a key, first match only; models
`HashMap::get_mut` followed by assignment. -/
def updateAssoc {α : Type} (k : String) (f : α → α) :
    List (String × α) → List (String × α)
  | [] => []
  | (k2, v) :: rest =>
    if k2 = k then (k2, f v) :: rest else (k2, v) :: updateAssoc k f rest

/-- `new_assets_map`: seed the registry from the compiled-in static
asset table (taken here as a parameter; the table lives in
`crate::tsc`), keying each text under `asset:///<name>`. -/
def newAssetsMap (staticAssets : List (String × String)) : AssetsMap :=
  staticAssets.map fun kv =>
    ("asset:///" ++ kv.1, AssetDocument.new ("asset:///" ++ kv.1) kv.2)

/-- `Assets::get`. -/
def Assets.get (assets : AssetsMap) (specifier : String) :
    Option AssetDocument :=
  lookupAssoc specifier assets

/-- `Assets::initialize`: merge the isolate's assets, keeping every
entry already present. -/
def Assets.initializeWith (assets : AssetsMap)
    (isolateAssets : List AssetDocument) : AssetsMap :=
  isolateAssets.foldl
    (fun m a =>
      if (lookupAssoc a.specifier m).isSome then m else m ++ [(a.specifier, a)])
    assets

/-- `Assets::cache_navigation_tree`: replace the entry with a copy
carrying the tree; `Missing asset.` if the specifier is unknown. -/
def Assets.cacheNavigationTree (assets : AssetsMap) (specifier : String)
    (navigationTree : NavigationTree) : Except String AssetsMap :=
  match lookupAssoc specifier assets with
  | none => .error "Missing asset."
  | some _ =>
    .ok (updateAssoc specifier (fun doc => doc.withNavigationTree navigationTree)
      assets)

/-- `RequestMethod` (`tsc.rs`): the closed set of request kinds the
facade can enqueue.  Payloads are carried exactly as in the source;
specifier/position payloads keep their modelled types, while the
external option bags (`TsConfig`, `UserPreferences`,
`GetCompletionsAtPositionOptions`, `SignatureHelpItemsOptions`,
`FormatCodeSettings`, `GetCompletionDetailsArgs`,
`GetNavigateToItemsArgs`) are carried opaquely as `Value` snapshots of
their JSON forms — the host loop never inspects them and no verified
claim reads them. -/
inductive RequestMethod where
  | configure (config : Value)
  | findRenameLocations (specifier : String) (position : Nat)
    (findInStrings : Bool) (findInComments : Bool)
    (providePrefixAndSuffixTextForRename : Bool)
  | getAssets
  | getApplicableRefactors (specifier : String) (span : TextSpan) (kind : String)
  | getEditsForRefactor (specifier : String) (formatCodeSettings : Value)
    (span : TextSpan) (refactorName : String) (actionName : String)
  | getCodeFixes (specifier : String) (startPos : Nat) (endPos : Nat)
    (errorCodes : List String) (formatCodeSettings : Value)
  | getCompletions (specifier : String) (position : Nat)
    (preferences : Value) (formatCodeSettings : Value)
  | getCompletionDetails (args : Value)
  | getCombinedCodeFix (specifier : String) (fixId : Value)
    (formatCodeSettings : Value)
  | getDefinition (specifier : String) (position : Nat)
  | getDiagnostics (specifiers : List String)
  | getDocumentHighlights (specifier : String) (position : Nat)
    (filesToSearch : List String)
  | getEncodedSemanticClassifications (specifier : String) (span : TextSpan)
  | getImplementation (specifier : String) (position : Nat)
  | getNavigateToItems (args : Value)
  | getNavigationTree (specifier : String)
  | getOutliningSpans (specifier : String)
  | getQuickInfo (specifier : String) (position : Nat)
  | findReferences (specifier : String) (position : Nat)
  | getSignatureHelpItems (specifier : String) (position : Nat) (options : Value)
  | getSmartSelectionRange (specifier : String) (position : Nat)
  | getSupportedCodeFixes
  | getTypeDefinition (specifier : String) (position : Nat)
  | prepareCallHierarchy (specifier : String) (position : Nat)
  | provideCallHierarchyIncomingCalls (specifier : String) (position : Nat)
  | provideCallHierarchyOutgoingCalls (specifier : String) (position : Nat)
  | provideInlayHints (specifier : String) (span : TextSpan) (preferences : Value)
  | restart

/-- An observable action of the host thread: executing the `serverInit`
bootstrap script, or executing `serverRequest` for one dequeued
request. -/
inductive HostEvent where
  | serverInit
  | serverRequest (req : RequestMethod)

/-- The body of the host thread's receive loop in `TsServer::new`
(`tsc.rs` lines 138–151), abstracted to the trace of scripts it runs:
for each dequeued request, run `start` (= `serverInit`) first when the
`started` latch is unset, set the latch, then run the request.  The
reply channel is dropped from the trace; it carries no bootstrap
information. -/
def tsServerLoop : List RequestMethod → Bool → List HostEvent
  | [], _ => []
  | req :: rest, started =>
    (if !started then [HostEvent.serverInit] else []) ++
      (HostEvent.serverRequest req :: tsServerLoop rest true)

/-- `TsServer::new` starts the loop with the `started` latch unset. -/
def runTsServer (reqs : List RequestMethod) : List HostEvent :=
  tsServerLoop reqs false

/-- The error cases `request` (`tsc.rs`) can produce: a propagated
script-evaluation error, or the custom `RequestError` raised when the
analyzer returned without stashing a response ("The response was not
received for the request."). -/
inductive TsError where
  | scriptError (msg : String)
  | noResponse
  deriving DecidableEq, Repr

/-- `op_respond` (`tsc.rs`): stash the analyzer's `{ id, data }`
payload into host state and return `true`. -/
def opRespond (st : State) (args : Response) : Bool × State :=
  (true, { st with response := some args })

/-- `request` (`tsc.rs`): bump `last_id`, invoke
`globalThis.serverRequest` in the analyzer runtime (modelled by the
`analyzer` parameter, which sees the request, the fresh id and the
host state and may mutate the state through the ops), then read the
stashed response out of the state — clearing it — or fail with the
no-response error.  Snapshot and token installation touch only the
omitted external handles. -/
def request
    (analyzer : RequestMethod → Nat → State → Except String Unit × State)
    (st : State) (method : RequestMethod) : Except TsError Value × State :=
  let st1 := { st with lastId := st.lastId + 1 }
  match analyzer method st1.lastId st1 with
  | (.error msg, st2) => (.error (.scriptError msg), st2)
  | (.ok _, st2) =>
    match st2.response with
    | some response => (.ok response.data, { st2 with response := none })
    | none => (.error .noResponse, st2)

/-- `SCOPE_RE = scope_(\d)` applied to a character list: find the
first occurrence of `scope_` immediately followed by a digit and
return that single digit (the capture always parses as `u32`). -/
def getScopeChars : List Char → Option Nat
  | [] => none
  | c :: cs =>
    if "scope_".toList.isPrefixOf (c :: cs) then
      match (c :: cs).drop 6 with
      | d :: _ => if d.isDigit then some (d.toNat - 48) else getScopeChars cs
      | [] => getScopeChars cs
    else getScopeChars cs

/-- The `get_scope` closure inside `RefactorActionInfo::is_preferred`:
the numeric scope parsed from `scope_N` in an action name. -/
def getScope (name : String) : Option Nat :=
  getScopeChars name.toList

/-- `RefactorActionInfo` (`tsc.rs`). -/
structure RefactorActionInfo where
  name : String
  description : String
  notApplicableReason : Option String
  kind : Option String

/-- Modelled from the spec: the `EXTRACT_CONSTANT` refactor-kind
matcher lives in `super::refactor`, which is not under `src/`.  The
spec identifies extract-constant actions by names carrying a numeric
`scope_N` suffix (conventionally `constant_scope_N`), so matching is
modelled as the `constant_` name prefix. -/
def extractConstantMatches (name : String) : Bool :=
  strStartsWith name "constant_"

/-- Modelled from the spec: the `EXTRACT_TYPE` matcher from
`super::refactor` (not under `src/`); an action matches Extract Type
when its name announces extraction to a type alias. -/
def extractTypeMatches (name : String) : Bool :=
  strStartsWith name "Extract to type alias"

/-- Modelled from the spec: the `EXTRACT_INTERFACE` matcher from
`super::refactor` (not under `src/`); an action matches Extract
Interface when its name announces extraction to an interface. -/
def extractInterfaceMatches (name : String) : Bool :=
  strStartsWith name "Extract to interface"

/-- `RefactorActionInfo::is_preferred` (`tsc.rs` lines 1978–2010).
The source's sibling filter is
`!std::ptr::eq(&self, other) && EXTRACT_CONSTANT.matches(&other.name)`.
`&self` there is a `&&RefactorActionInfo` pointing at the local `self`
binding and `other` is the `&&RefactorActionInfo` the iterator hands
the closure, so `ptr::eq` compares the addresses of two distinct
reference cells and is always `false`: the filter keeps every
extract-constant action, including `self` itself.  The embedding
reproduces that compiled behavior. -/
def RefactorActionInfo.isPreferred (self : RefactorActionInfo)
    (allActions : List RefactorActionInfo) : Bool :=
  if extractConstantMatches self.name then
    match getScope self.name with
    | some scope =>
      (allActions.filter fun other => extractConstantMatches other.name).all
        fun other =>
          match getScope other.name with
          | some otherScope => decide (scope < otherScope)
          | none => true
    | none => false
  else if extractTypeMatches self.name ||
      extractInterfaceMatches self.name then
    true
  else
    false

/-- Splitter behind `parse_kind_modifier`: cut a character list at
every comma or whitespace character (`PART_KIND_MODIFIER_RE = r",|\s+"`;
collapsing whitespace runs only changes how many empty pieces appear,
which no membership query ever looks at). -/
def splitKindModifiers : List Char → List (List Char)
  | [] => [[]]
  | c :: cs =>
    if c = ',' ∨ c.isWhitespace then
      [] :: splitKindModifiers cs
    else
      match splitKindModifiers cs with
      | [] => [[c]]
      | piece :: rest => (c :: piece) :: rest

/-- `parse_kind_modifier` (`tsc.rs`): split the kind-modifier string
into pieces; the callers only test membership, so the `HashSet` is a
plain list here. -/
def parseKindModifier (kindModifiers : String) : List String :=
  (splitKindModifiers kindModifiers.toList).map String.mk

/-- `lsp::Position` (line and UTF-16 character). -/
structure Position where
  line : Nat
  character : Nat
  deriving DecidableEq, Repr

/-- `lsp::Range`; `stop` models the protocol's `end` field (a reserved
word in Lean). -/
structure Range where
  start : Position
  stop : Position
  deriving DecidableEq, Repr

/-- `LineIndex::position_tsc` is external (`super::text`); translators
receive it as a function from byte offsets to positions. -/
def TextSpan.toRange (span : TextSpan) (li : Nat → Position) : Range :=
  { start := li span.start, stop := li (span.start + span.length) }

/-- The subset of `lsp::CompletionItemKind` this translator produces. -/
inductive CompletionItemKind where
  | keyword
  | variable
  | field
  | function
  | method
  | enum
  | enumMember
  | module
  | classKind
  | interface
  | text
  | file
  | folder
  | constant
  | property
  | color
  deriving DecidableEq, Repr

/-- `From<ScriptElementKind> for lsp::CompletionItemKind` (`tsc.rs`
lines 969–1016, mirroring `convertKind` in vscode). -/
def scriptElementKindToCompletionItemKind :
    ScriptElementKind → CompletionItemKind
  | .primitiveType | .keyword => .keyword
  | .constElement | .letElement | .variableElement | .localVariableElement
  | .alias | .parameterElement => .variable
  | .memberVariableElement | .memberGetAccessorElement
  | .memberSetAccessorElement => .field
  | .functionElement | .localFunctionElement => .function
  | .memberFunctionElement | .constructSignatureElement
  | .callSignatureElement | .indexSignatureElement => .method
  | .enumElement => .enum
  | .enumMemberElement => .enumMember
  | .moduleElement | .externalModuleName => .module
  | .classElement | .typeElement => .classKind
  | .interfaceElement => .interface
  | .warning => .text
  | .scriptElement => .file
  | .directory => .folder
  | .string => .constant
  | _ => .property

/-- `lsp::InsertTextFormat` (only the snippet variant is produced). -/
inductive InsertTextFormat where
  | snippet
  deriving DecidableEq, Repr

/-- `lsp::CompletionItemTag` (only DEPRECATED is produced). -/
inductive CompletionItemTag where
  | deprecated
  deriving DecidableEq, Repr

/-- `lsp::InsertReplaceEdit`. -/
structure InsertReplaceEdit where
  newText : String
  insert : Range
  replace : Range
  deriving DecidableEq, Repr

/-- `CompletionItemData` (`tsc.rs`): the opaque context the item
carries so details can be resolved in a second request. -/
structure CompletionItemData where
  specifier : String
  position : Nat
  name : String
  source : Option String
  data : Option Value
  useCodeSnippet : Bool

/-- The fields of `lsp::CompletionItem` that
`CompletionEntry::as_completion_item` fills in; every other protocol
field is left at its `Default`.  The `data` field holds the
`json!({ "tsc": data })` payload, kept here in structured form. -/
structure CompletionItem where
  label : String
  kind : Option CompletionItemKind
  sortText : Option String
  preselect : Option Bool
  textEdit : Option InsertReplaceEdit
  filterText : Option String
  insertText : Option String
  insertTextFormat : Option InsertTextFormat
  detail : Option String
  tags : Option (List CompletionItemTag)
  commitCharacters : Option (List String)
  data : Option CompletionItemData

/-- Modelled from the spec: `config::CompletionSettings`
(`super::config`, not under `src/`); the translator reads only the
"complete function calls" flag from it. -/
structure CompletionSettings where
  completeFunctionCalls : Bool
  deriving DecidableEq, Repr

/-- `SymbolDisplayPart` (`tsc.rs`); the optional JSDoc link target is
carried opaquely — no completion-entry claim reads it. -/
structure SymbolDisplayPart where
  text : String
  kind : String
  target : Option Value

/-- `CompletionEntryLabelDetails` (`tsc.rs`). -/
structure CompletionEntryLabelDetails where
  detail : Option String
  description : Option String

/-- `CompletionEntry` (`tsc.rs`). -/
structure CompletionEntry where
  name : String
  kind : ScriptElementKind
  kindModifiers : Option String
  sortText : String
  insertText : Option String
  isSnippet : Option Bool
  replacementSpan : Option TextSpan
  hasAction : Option Bool
  source : Option String
  sourceDisplay : Option (List SymbolDisplayPart)
  labelDetails : Option CompletionEntryLabelDetails
  isRecommended : Option Bool
  isFromUncheckedFile : Option Bool
  isPackageJsonImport : Option Bool
  isImportStatementCompletion : Option Bool
  data : Option Value

/-- `Default` for `CompletionEntry` (used by the source's own unit
tests to build fixtures). -/
def CompletionEntry.default : CompletionEntry :=
  { name := "", kind := .unknown, kindModifiers := none, sortText := "",
    insertText := none, isSnippet := none, replacementSpan := none,
    hasAction := none, source := none, sourceDisplay := none,
    labelDetails := none, isRecommended := none, isFromUncheckedFile := none,
    isPackageJsonImport := none, isImportStatementCompletion := none,
    data := none }

/-- `CompletionInfo` (`tsc.rs`). -/
structure CompletionInfo where
  entries : List CompletionEntry
  isGlobalCompletion : Bool
  isMemberCompletion : Bool
  isNewIdentifierLocation : Bool
  metadata : Option Value
  optionalReplacementSpan : Option TextSpan

/-- `CompletionEntry::get_commit_characters` (`tsc.rs` lines
2636–2684). -/
def CompletionEntry.getCommitCharacters (e : CompletionEntry)
    (info : CompletionInfo) (settings : CompletionSettings) :
    Option (List String) :=
  if info.isNewIdentifierLocation then
    none
  else
    let commitCharacters : List String :=
      match e.kind with
      | .memberGetAccessorElement | .memberSetAccessorElement
      | .constructSignatureElement | .callSignatureElement
      | .indexSignatureElement | .enumElement | .interfaceElement =>
        [".", ";"]
      | .moduleElement | .alias | .constElement | .letElement
      | .variableElement | .localVariableElement | .memberVariableElement
      | .classElement | .functionElement | .memberFunctionElement
      | .keyword | .parameterElement =>
        [".", ",", ";"] ++ (if !settings.completeFunctionCalls then ["("] else [])
      | _ => []
    if commitCharacters.isEmpty then none else some commitCharacters

/-- The capture group of `BRACKET_ACCESSOR_RE = ^\[['"](.+)[\['"]\]$`:
the whole string must be an opening bracket, a quote, a non-empty
middle (the greedy capture), a closing quote-class character and a
closing bracket. -/
def bracketAccessorCapture (s : String) : Option String :=
  match s.toList with
  | '[' :: q :: rest =>
    if q = aposChar ∨ q = quoteChar then
      match rest.reverse with
      | ']' :: c :: midRev =>
        if (c = aposChar ∨ c = quoteChar ∨ c = '[') ∧ midRev ≠ [] then
          some (String.mk midRev.reverse)
        else
          none
      | _ => none
    else
      none
  | _ => none

/-- `BRACKET_ACCESSOR_RE.replace(insert_text, ".{capture}")`: the
anchored pattern either rewrites the whole string or leaves it
unchanged. -/
def bracketAccessorReplace (s : String) : String :=
  match bracketAccessorCapture s with
  | some captured => "." ++ captured
  | none => s

/-- `CompletionEntry::get_filter_text` (`tsc.rs` lines 2686–2713). -/
def CompletionEntry.getFilterText (e : CompletionEntry) : Option String :=
  if strStartsWith e.name "#" then
    match e.insertText with
    | some insertText =>
      if strStartsWith insertText "this.#" then
        some (rustReplace insertText "this.#" "")
      else
        some insertText
    | none => none
  else
    match e.insertText with
    | some insertText =>
      if strStartsWith insertText "this." then
        none
      else if strStartsWith insertText "[" then
        some (bracketAccessorReplace insertText)
      else
        e.insertText
    | none => e.insertText

/-- `FILE_EXTENSION_KIND_MODIFIERS` (`tsc.rs` line 89). -/
def fileExtensionKindModifiers : List String :=
  [".d.ts", ".ts", ".tsx", ".js", ".jsx", ".json"]

/-- Model of `str::to_lowercase` restricted to ASCII (the extension
modifiers compared against it are ASCII). -/
def strToLowercase (s : String) : String :=
  String.mk (s.toList.map fun c =>
    if 65 ≤ c.toNat ∧ c.toNat ≤ 90 then Char.ofNat (c.toNat + 32) else c)

/-- `CompletionEntry::as_completion_item` (`tsc.rs` lines 2715–2816),
written as one pass of lets mirroring the source's field mutations. -/
def CompletionEntry.asCompletionItem (e : CompletionEntry)
    (li : Nat → Position) (info : CompletionInfo)
    (settings : CompletionSettings) (specifier : String) (position : Nat) :
    CompletionItem :=
  let label := e.name
  let kind : Option CompletionItemKind :=
    some (scriptElementKindToCompletionItemKind e.kind)
  let sortText :=
    if e.source.isSome then some ("￿" ++ e.sortText) else some e.sortText
  let preselect := e.isRecommended
  let useCodeSnippet := settings.completeFunctionCalls &&
    (kind = some .function || kind = some .method)
  let commitCharacters := e.getCommitCharacters info settings
  let insertText := e.insertText
  let insertTextFormat : Option InsertTextFormat :=
    match e.isSnippet with
    | some true => some .snippet
    | _ => none
  let range := e.replacementSpan
  let filterText := e.getFilterText
  -- The source's `if let Some(kind_modifiers)` block mutates label,
  -- insert/filter text, tags, kind and detail.  Taking the empty
  -- modifier set when the field is absent makes every membership test
  -- false, which is exactly the skipped block.
  let kindModifiers : List String :=
    match e.kindModifiers with
    | none => []
    | some kindModifiersStr => parseKindModifier kindModifiersStr
  let hasOptional := kindModifiers.contains "optional"
  let insertText := if hasOptional && insertText.isNone then some label else insertText
  let filterText := if hasOptional && filterText.isNone then some label else filterText
  let label := if hasOptional then label ++ "?" else label
  let tags : Option (List CompletionItemTag) :=
    if kindModifiers.contains "deprecated" then some [.deprecated] else none
  let kind :=
    if kindModifiers.contains "color" then
      some CompletionItemKind.color
    else
      kind
  let detail : Option String :=
    if e.kind = ScriptElementKind.scriptElement then
      match fileExtensionKindModifiers.find?
          (fun extModifier => kindModifiers.contains extModifier) with
      | some extModifier =>
        if strEndsWith (strToLowercase e.name) extModifier then
          some e.name
        else
          some (e.name ++ extModifier)
      | none => none
    else
      none
  let textEdit : Option InsertReplaceEdit :=
    match range, insertText with
    | some textSpan, some newText =>
      let range := textSpan.toRange li
      some { newText, insert := range, replace := range }
    | _, _ => none
  let tsc : CompletionItemData :=
    { specifier, position, name := e.name, source := e.source,
      data := e.data, useCodeSnippet }
  { label, kind, sortText, preselect, textEdit, filterText, insertText,
    insertTextFormat, detail, tags, commitCharacters, data := some tsc }

/-- `lsp::CompletionList` (the payload of
`CompletionResponse::List`). -/
structure CompletionList where
  isIncomplete : Bool
  items : List CompletionItem

/-- `CompletionInfo::as_completion_response` (`tsc.rs` lines
2510–2548).  The two `unwrap`s on the metadata path are modelled as
`none` (a panic); a successful translation is `some`. -/
def CompletionInfo.asCompletionResponse (info : CompletionInfo)
    (li : Nat → Position) (settings : CompletionSettings)
    (specifier : String) (position : Nat) : Option CompletionList :=
  let items := info.entries.map fun entry =>
    entry.asCompletionItem li info settings specifier position
  match info.metadata with
  | none => some { isIncomplete := false, items }
  | some v =>
    match v.asObject with
    | none => none
    | some fields =>
      match ((lookupAssoc "isIncomplete" fields).getD (Value.bool false)).asBool with
      | none => none
      | some isIncomplete => some { isIncomplete, items }

/-- `text_size::TextRange`: a half-open byte interval; `stop` models
the crate's `end()`. -/
structure TextRange where
  start : Nat
  stop : Nat
  deriving DecidableEq, Repr

/-- `TextRange::at(offset, len)`. -/
def TextRange.at (start length : Nat) : TextRange :=
  ⟨start, start + length⟩

/-- `TextRange::intersect`: the common sub-range, `none` when the
ranges are disjoint (touching ranges yield an empty intersection, not
`none`). -/
def TextRange.intersect (r1 r2 : TextRange) : Option TextRange :=
  let start := max r1.start r2.start
  let stop := min r1.stop r2.stop
  if stop < start then none else some ⟨start, stop⟩

/-- `TextRange::contains_range`. -/
def TextRange.containsRange (r1 r2 : TextRange) : Bool :=
  decide (r1.start ≤ r2.start) && decide (r2.stop ≤ r1.stop)

/-- The subset of `lsp::SymbolKind` this translator produces. -/
inductive SymbolKind where
  | module
  | classKind
  | enum
  | enumMember
  | interface
  | method
  | field
  | variable
  | function
  | constructor
  | typeParameter
  | string
  deriving DecidableEq, Repr

/-- `From<ScriptElementKind> for lsp::SymbolKind` (`tsc.rs` lines
1020–1053, mirroring `fromProtocolScriptElementKind` in vscode). -/
def scriptElementKindToSymbolKind : ScriptElementKind → SymbolKind
  | .moduleElement => .module
  | .typeElement => .classKind
  | .classElement => .classKind
  | .enumElement => .enum
  | .enumMemberElement => .enumMember
  | .interfaceElement => .interface
  | .indexSignatureElement => .method
  | .callSignatureElement => .method
  | .memberFunctionElement => .method
  | .memberVariableElement => .field
  | .memberGetAccessorElement => .field
  | .memberSetAccessorElement => .field
  | .variableElement => .variable
  | .letElement => .variable
  | .constElement => .variable
  | .localVariableElement => .variable
  | .alias => .variable
  | .functionElement => .function
  | .localFunctionElement => .function
  | .constructSignatureElement => .constructor
  | .constructorImplementationElement => .constructor
  | .typeParameterElement => .typeParameter
  | .string => .string
  | _ => .variable

/-- `lsp::SymbolTag` (only DEPRECATED is produced). -/
inductive SymbolTag where
  | deprecated
  deriving DecidableEq, Repr

/-- The fields of `lsp::DocumentSymbol` the translator fills in. -/
inductive DocumentSymbol where
  | mk
    (name : String)
    (kind : SymbolKind)
    (range : Range)
    (selectionRange : Range)
    (tags : Option (List SymbolTag))
    (children : Option (List DocumentSymbol))
    (detail : Option String)
    (deprecated : Option Bool)

/-- `NavigationTree::should_include_entry` (`tsc.rs` lines
1558–1564). -/
def NavigationTree.shouldIncludeEntry (t : NavigationTree) : Bool :=
  match t.kind with
  | .alias => false
  | _ =>
    !(t.text = "") && !(t.text = "<function>") && !(t.text = "<class>")

/-- The `document_symbols.push(...)` body inside
`collect_document_symbols` (`tsc.rs` lines 1506–1552): selection span,
accessor name prefixes, deprecated tag and child attachment for one
span of the entry. -/
def mkDocumentSymbol (li : Nat → Position) (t : NavigationTree)
    (span : TextSpan) (symbolChildren : List DocumentSymbol) :
    DocumentSymbol :=
  let range := TextRange.at span.start span.length
  let selectionSpan :=
    match t.nameSpan with
    | some nameSpan =>
      if range.containsRange (TextRange.at nameSpan.start nameSpan.length) then
        nameSpan
      else
        span
    | none => span
  let name :=
    match t.kind with
    | .memberGetAccessorElement => "(get) " ++ t.text
    | .memberSetAccessorElement => "(set) " ++ t.text
    | _ => t.text
  let tags : Option (List SymbolTag) :=
    if (parseKindModifier t.kindModifiers).contains "deprecated" then
      some [.deprecated]
    else
      none
  let children :=
    if symbolChildren.isEmpty then none else some symbolChildren
  ⟨name, scriptElementKindToSymbolKind t.kind, span.toRange li,
    selectionSpan.toRange li, tags, children, none, none⟩

/-- `should_traverse_child` inside `collect_document_symbols`: the
child owns a span intersecting the current range. -/
def shouldTraverseChild (range : TextRange) (child : NavigationTree) : Bool :=
  child.spans.any fun childSpan =>
    (range.intersect (TextRange.at childSpan.start childSpan.length)).isSome

/-- The inner `for child in children` loop of
`collect_document_symbols`: fold the (precomputed) child results of
every traversed child into the `(symbol_children, should_include)`
accumulator. -/
def collectChildrenFold (range : TextRange)
    (childResults : List (NavigationTree × (List DocumentSymbol × Bool)))
    (acc : List DocumentSymbol × Bool) : List DocumentSymbol × Bool :=
  match childResults with
  | [] => acc
  | (c, res) :: rest =>
    if shouldTraverseChild range c then
      collectChildrenFold range rest (acc.1 ++ res.1, acc.2 || res.2)
    else
      collectChildrenFold range rest acc

/-- The outer `for span in self.spans` loop of
`collect_document_symbols`: per span, gather traversed children, then
push the symbol when the (monotone) `should_include` flag is set. -/
def collectSymbolSpans (li : Nat → Position) (t : NavigationTree)
    (childResults : List (NavigationTree × (List DocumentSymbol × Bool))) :
    List TextSpan → Bool → List DocumentSymbol × Bool
  | [], shouldInclude => ([], shouldInclude)
  | span :: rest, shouldInclude =>
    let range := TextRange.at span.start span.length
    let childAcc := collectChildrenFold range childResults ([], shouldInclude)
    let pushed :=
      if childAcc.2 then [mkDocumentSymbol li t span childAcc.1] else []
    let next := collectSymbolSpans li t childResults rest childAcc.2
    (pushed ++ next.1, next.2)

mutual

/-- `NavigationTree::collect_document_symbols` (`tsc.rs` lines
1468–1556): returns the symbols this entry appends to its parent's
accumulator together with the entry's final `should_include` flag.
The recursion into children is hoisted into `collectNavChildren`;
since the call is pure, precomputing every child's result and
consulting it per span yields exactly the value the source computes by
recursing only into intersecting children. -/
def NavigationTree.collectDocumentSymbols (li : Nat → Position)
    (t : NavigationTree) : List DocumentSymbol × Bool :=
  if !t.shouldIncludeEntry && (t.childItems.map List.isEmpty).getD true then
    ([], false)
  else
    collectSymbolSpans li t (collectNavChildren li (t.childItems.getD []))
      t.spans t.shouldIncludeEntry
termination_by sizeOf t
decreasing_by
  simp_wf
  rcases t with ⟨tx, k, m, sp, ns, ci⟩
  rcases ci with _ | l
  · simp [NavigationTree.childItems]
  · simp [NavigationTree.childItems]
    omega

/-- Recursive results of a list of navigation-tree children. -/
def collectNavChildren (li : Nat → Position) :
    List NavigationTree → List (NavigationTree × (List DocumentSymbol × Bool))
  | [] => []
  | c :: rest =>
    (c, c.collectDocumentSymbols li) :: collectNavChildren li rest
termination_by cs => sizeOf cs
decreasing_by
  all_goals simp_wf
  all_goals omega

end

theorem lookupAssoc_insertAssoc_self {α : Type} (k : String) (v : α) :
    ∀ l : List (String × α), lookupAssoc k (insertAssoc k v l) = some v
  | [] => by simp [insertAssoc, lookupAssoc]
  | (k2, v2) :: rest => by
    by_cases h : k2 = k
    · simp [insertAssoc, h, lookupAssoc]
    · simp [insertAssoc, h, lookupAssoc, lookupAssoc_insertAssoc_self k v rest]

/-- C2, counterexample.  The claim asserts
`denormalize(normalize(s)) = s` for every specifier the analyzer emits
in one session.  In the session that first emits
`file:///a.d.ts.d.ts` and then emits `file:///a.d.ts`, the second
specifier is unchanged by normalization but the memo map already binds
it to the first one's original spelling, so denormalizing it yields
`file:///a.d.ts.d.ts` — not the emitted string `file:///a.d.ts`. -/
theorem c2_counterexample :
    (let r1 := State.new.normalizeSpecifier "file:///a.d.ts.d.ts"
     let r2 := r1.2.normalizeSpecifier "file:///a.d.ts"
     r2.1 = some "file:///a.d.ts" ∧
       r2.2.denormalizeSpecifier "file:///a.d.ts" = "file:///a.d.ts.d.ts") ∧
    "file:///a.d.ts.d.ts" ≠ "file:///a.d.ts" := by
  exact ⟨⟨by decide, by decide⟩, by decide⟩

/-- C2, amended.  `denormalize(normalize(s)) = s` holds for every
emitted specifier `s` that either is actually rewritten by the
`.d.ts.d.ts → .d.ts` collapse (the memo entry then restores it), or
whose spelling has no earlier memo entry; it can fail when a previously
normalized specifier already claimed `s` as its normalized form (see
the counterexample). -/
theorem c2_denormalize_normalize (st : State) (s n : String) (st' : State)
    (h : st.normalizeSpecifier s = (some n, st'))
    (hside : rustReplace s ".d.ts.d.ts" ".d.ts" ≠ s ∨
      (rustReplace s ".d.ts.d.ts" ".d.ts" = s ∧
        lookupAssoc s st.specifiers = none)) :
    st'.denormalizeSpecifier n = s := by
  unfold State.normalizeSpecifier at h
  have hparse : urlParse (rustReplace s ".d.ts.d.ts" ".d.ts") = some n :=
    congrArg Prod.fst h
  have hstate :
      (if rustReplace s ".d.ts.d.ts" ".d.ts" ≠ s then
        { st with specifiers :=
            insertAssoc (rustReplace s ".d.ts.d.ts" ".d.ts") s st.specifiers }
      else st) = st' :=
    congrArg Prod.snd h
  have hn : n = rustReplace s ".d.ts.d.ts" ".d.ts" := by
    unfold urlParse at hparse
    split at hparse
    · exact (Option.some.inj hparse).symm
    · cases hparse
  subst hn
  rcases hside with hne | ⟨heq, hnone⟩
  · rw [if_pos hne] at hstate
    subst hstate
    unfold State.denormalizeSpecifier
    simp [lookupAssoc_insertAssoc_self]
  · rw [if_neg (by simp [heq])] at hstate
    subst hstate
    unfold State.denormalizeSpecifier
    simp [heq, hnone]

/-- Witness for `c2_denormalize_normalize` at a concrete rewritten
specifier: normalizing `asset:///lib.deno.d.ts.d.ts` collapses it and
denormalization restores the original spelling. -/
theorem c2_witness :
    State.new.normalizeSpecifier "asset:///lib.deno.d.ts.d.ts" =
      (some "asset:///lib.deno.d.ts",
        { lastId := 1, response := none,
          specifiers :=
            [("asset:///lib.deno.d.ts", "asset:///lib.deno.d.ts.d.ts")] }) ∧
    State.denormalizeSpecifier
        { lastId := 1, response := none,
          specifiers :=
            [("asset:///lib.deno.d.ts", "asset:///lib.deno.d.ts.d.ts")] }
        "asset:///lib.deno.d.ts" = "asset:///lib.deno.d.ts.d.ts" :=
  ⟨rfl,
    c2_denormalize_normalize State.new "asset:///lib.deno.d.ts.d.ts"
      "asset:///lib.deno.d.ts" _ rfl (Or.inl (by decide))⟩

theorem lookupAssoc_append_left {α : Type} (k : String) (v : α)
    (l2 : List (String × α)) :
    ∀ l : List (String × α), lookupAssoc k l = some v →
      lookupAssoc k (l ++ l2) = some v
  | [], h => by cases h
  | (k2, v2) :: rest, h => by
    by_cases hk : k2 = k
    · simpa [lookupAssoc, hk] using h
    · simp only [lookupAssoc, hk, if_false, List.cons_append] at h ⊢
      simpa [lookupAssoc, hk] using
        lookupAssoc_append_left k v l2 rest (by simpa [lookupAssoc, hk] using h)

theorem lookupAssoc_updateAssoc {α : Type} (k k2 : String) (f : α → α) :
    ∀ l : List (String × α),
      lookupAssoc k (updateAssoc k2 f l) =
        if k = k2 then (lookupAssoc k l).map f else lookupAssoc k l
  | [] => by by_cases h : k = k2 <;> simp [updateAssoc, lookupAssoc, h]
  | (k3, v) :: rest => by
    by_cases h3 : k3 = k2 <;> by_cases hk : k3 = k
    · subst h3; subst hk
      simp [updateAssoc, lookupAssoc]
    · subst h3
      have hne : ¬k = k3 := fun hh => hk hh.symm
      simp [updateAssoc, lookupAssoc, hk, hne]
    · subst hk
      simp [updateAssoc, lookupAssoc, h3]
    · simp [updateAssoc, lookupAssoc, h3, hk, lookupAssoc_updateAssoc k k2 f rest]

theorem Assets.get_initializeWith (m : AssetsMap) (spec : String)
    (d : AssetDocument) (h : Assets.get m spec = some d) :
    ∀ isolate : List AssetDocument,
      Assets.get (Assets.initializeWith m isolate) spec = some d := by
  intro isolate
  induction isolate generalizing m with
  | nil => exact h
  | cons a rest ih =>
    unfold Assets.initializeWith at ih ⊢
    simp only [List.foldl_cons]
    by_cases hmem : (lookupAssoc a.specifier m).isSome
    · simpa [hmem] using ih m h
    · simp only [hmem, if_false]
      exact ih _ (lookupAssoc_append_left spec d [(a.specifier, a)] m h)

/-- C3, counterexample.  The claim asserts the navigation-tree slot of
an asset entry is set at most once.  Caching a tree twice for the same
asset succeeds both times and the second call replaces the first tree
(`a` becomes `b`), so an attached tree does change. -/
theorem c3_counterexample :
    ((Assets.cacheNavigationTree (newAssetsMap [("lib.deno.d.ts", "x")])
          "asset:///lib.deno.d.ts"
          ⟨"a", .moduleElement, "", [], none, none⟩).toOption.bind
        (fun m1 =>
          (Assets.get m1 "asset:///lib.deno.d.ts").bind fun d =>
            d.maybeNavigationTree.map NavigationTree.text)) = some "a" ∧
    ((Assets.cacheNavigationTree (newAssetsMap [("lib.deno.d.ts", "x")])
          "asset:///lib.deno.d.ts"
          ⟨"a", .moduleElement, "", [], none, none⟩).toOption.bind
        (fun m1 =>
          (Assets.cacheNavigationTree m1 "asset:///lib.deno.d.ts"
              ⟨"b", .moduleElement, "", [], none, none⟩).toOption.bind
            fun m2 =>
              (Assets.get m2 "asset:///lib.deno.d.ts").bind fun d =>
                d.maybeNavigationTree.map NavigationTree.text)) = some "b" ∧
    ("a" : String) ≠ "b" := by
  exact ⟨rfl, rfl, by decide⟩

/-- C3, amended.  Once an asset entry exists, its text and derived
line index never change under any registry operation, and its
navigation-tree slot is monotone in presence (once set it never
becomes empty again); however the attached tree itself may be replaced
by a later `cache_navigation_tree` call — the code does not enforce
"set at most once". -/
theorem c3_asset_monotonicity (m : AssetsMap) (spec : String)
    (d : AssetDocument) (h : Assets.get m spec = some d) :
    (∀ isolate : List AssetDocument,
        Assets.get (Assets.initializeWith m isolate) spec = some d) ∧
    (∀ (spec2 : String) (tree : NavigationTree) (m' : AssetsMap),
        Assets.cacheNavigationTree m spec2 tree = .ok m' →
          ∃ d', Assets.get m' spec = some d' ∧ d'.text = d.text ∧
            d'.lineIndex = d.lineIndex ∧
            (d.maybeNavigationTree.isSome → d'.maybeNavigationTree.isSome)) := by
  refine ⟨Assets.get_initializeWith m spec d h, ?_⟩
  intro spec2 tree m' hcache
  unfold Assets.cacheNavigationTree at hcache
  rcases hfound : lookupAssoc spec2 m with _ | d2
  · rw [hfound] at hcache
    cases hcache
  · rw [hfound] at hcache
    have hm' : m' =
        updateAssoc spec2 (fun doc => doc.withNavigationTree tree) m := by
      cases hcache
      rfl
    subst hm'
    unfold Assets.get at h ⊢
    rw [lookupAssoc_updateAssoc]
    by_cases hs : spec = spec2
    · subst hs
      exact ⟨d.withNavigationTree tree, by simp [h], rfl, rfl, fun _ => rfl⟩
    · exact ⟨d, by simp [hs, h], rfl, rfl, fun hsome => hsome⟩

/-- Witness for `c3_asset_monotonicity`: the seeded registry holds
`asset:///lib.deno.d.ts`, and initializing with an empty isolate list
leaves the entry untouched. -/
theorem c3_witness :
    Assets.get
        (Assets.initializeWith (newAssetsMap [("lib.deno.d.ts", "x")]) [])
        "asset:///lib.deno.d.ts" =
      some (AssetDocument.new "asset:///lib.deno.d.ts" "x") :=
  (c3_asset_monotonicity (newAssetsMap [("lib.deno.d.ts", "x")])
    "asset:///lib.deno.d.ts" (AssetDocument.new "asset:///lib.deno.d.ts" "x")
    rfl).1 []

theorem tsServerLoop_started (reqs : List RequestMethod) :
    tsServerLoop reqs true = reqs.map HostEvent.serverRequest := by
  induction reqs with
  | nil => rfl
  | cons req rest ih => simp [tsServerLoop, ih]

/-- C1, counterexample.  The claim asserts that after a `Restart`
request the `started` latch is reset, so the next non-restart request
is preceded by a fresh `serverInit`.  Processing `[Restart,
GetSupportedCodeFixes]` produces exactly one `serverInit` — before the
`Restart` itself — and no bootstrap between the restart and the
following request, so the latch is not reset. -/
theorem c1_counterexample :
    runTsServer [RequestMethod.restart, RequestMethod.getSupportedCodeFixes] =
      [HostEvent.serverInit,
        HostEvent.serverRequest RequestMethod.restart,
        HostEvent.serverRequest RequestMethod.getSupportedCodeFixes] ∧
    runTsServer [RequestMethod.restart, RequestMethod.getSupportedCodeFixes] ≠
      [HostEvent.serverInit,
        HostEvent.serverRequest RequestMethod.restart,
        HostEvent.serverInit,
        HostEvent.serverRequest RequestMethod.getSupportedCodeFixes] := by
  refine ⟨rfl, fun h => ?_⟩
  have hlen := congrArg List.length h
  rw [show runTsServer
      [RequestMethod.restart, RequestMethod.getSupportedCodeFixes] =
      [HostEvent.serverInit,
        HostEvent.serverRequest RequestMethod.restart,
        HostEvent.serverRequest RequestMethod.getSupportedCodeFixes] from rfl]
    at hlen
  simp at hlen

/-- C1, amended.  The `started` latch is set before the first request
of any kind and never reset: the host sends `serverInit` exactly once,
ahead of the first `serverRequest`, and a `Restart` request is
forwarded to the analyzer like any other request without triggering a
re-bootstrap for the requests that follow it. -/
theorem c1_single_bootstrap (reqs : List RequestMethod) :
    runTsServer reqs =
      match reqs with
      | [] => []
      | _ :: _ => HostEvent.serverInit :: reqs.map HostEvent.serverRequest := by
  cases reqs with
  | nil => rfl
  | cons req rest => simp [runTsServer, tsServerLoop, tsServerLoop_started]

/-- C9.  If the analyzer call returns normally without having invoked
the `respond` op (no response stashed), the host delivers the
no-response error for that request; if `respond` was invoked (which
stashes the payload), the host delivers the stashed `data` as the
success result and clears the stored response. -/
theorem c9_response_delivery
    (analyzer : RequestMethod → Nat → State → Except String Unit × State)
    (st : State) (method : RequestMethod) (st2 : State)
    (hrun : analyzer method (st.lastId + 1)
        { st with lastId := st.lastId + 1 } = (.ok (), st2)) :
    (∀ stPre args, opRespond stPre args = (true, { stPre with response := some args })) ∧
    (st2.response = none →
      request analyzer st method = (.error .noResponse, st2)) ∧
    (∀ resp, st2.response = some resp →
      request analyzer st method = (.ok resp.data, { st2 with response := none })) := by
  refine ⟨fun stPre args => rfl, ?_, ?_⟩
  · intro hnone
    unfold request
    dsimp only
    rw [hrun]
    simp [hnone]
  · intro resp hsome
    unfold request
    dsimp only
    rw [hrun]
    simp [hsome]

/-- Witness for `c9_response_delivery`: an analyzer that answers via
the `respond` op makes the host deliver exactly that payload and clear
the stash; the fresh state of a silent analyzer yields the no-response
error. -/
theorem c9_witness :
    request (fun _ _ st => (.ok (), (opRespond st ⟨Value.bool true⟩).2))
        State.new RequestMethod.getAssets =
      (.ok (Value.bool true),
        { lastId := 2, response := none, specifiers := [] }) ∧
    request (fun _ _ st => (.ok (), st)) State.new RequestMethod.getAssets =
      (.error .noResponse, { lastId := 2, response := none, specifiers := [] }) :=
  ⟨(c9_response_delivery
      (fun _ _ st => (.ok (), (opRespond st ⟨Value.bool true⟩).2))
      State.new RequestMethod.getAssets
      { lastId := 2, response := some ⟨Value.bool true⟩, specifiers := [] }
      rfl).2.2 ⟨Value.bool true⟩ rfl,
    (c9_response_delivery (fun _ _ st => (.ok (), st))
      State.new RequestMethod.getAssets
      { lastId := 2, response := none, specifiers := [] }
      rfl).2.1 rfl⟩

/-- C4, code-bug evaluation.  The claim (and the plain intent of the
`ptr::eq` self-exclusion) says an Extract Constant action whose
numeric scope is smallest among its extract-constant siblings is
preferred.  Because the filter never excludes `self`, the comparison
`scope < scope` against the action itself always fails: a lone
`constant_scope_0` action is not preferred, and with siblings
`constant_scope_0`/`constant_scope_1` the smallest-scope action is
still not preferred (Extract Type/Interface actions are unaffected). -/
theorem c4_extract_constant_never_preferred :
    RefactorActionInfo.isPreferred ⟨"constant_scope_0", "", none, none⟩
        [⟨"constant_scope_0", "", none, none⟩] = false ∧
    RefactorActionInfo.isPreferred ⟨"constant_scope_0", "", none, none⟩
        [⟨"constant_scope_0", "", none, none⟩,
          ⟨"constant_scope_1", "", none, none⟩] = false ∧
    getScope "constant_scope_0" = some 0 ∧
    getScope "constant_scope_1" = some 1 ∧
    extractConstantMatches "constant_scope_0" = true ∧
    RefactorActionInfo.isPreferred ⟨"Extract to type alias", "", none, none⟩
        [⟨"Extract to type alias", "", none, none⟩] = true := by
  decide

/-- C6, counterexample.  The claim says `sortText` is prefixed with
U+FFFF iff the entry has a *non-empty* source.  The code tests only
`source.is_some()`: an entry whose source is present but empty
(`Some("")`) still gets the prefix, so its sort text is not "kept
unchanged". -/
theorem c6_counterexample :
    (let entry :=
      { CompletionEntry.default with
          name := "abc", sortText := "11", source := some "" }
     let item := entry.asCompletionItem (fun _ => ⟨0, 0⟩)
      ⟨[], false, false, false, none, none⟩ ⟨false⟩ "file:///a.ts" 0
     entry.source = some "" ∧ item.sortText = some ("￿" ++ "11") ∧
       item.sortText ≠ some "11") := by
  refine ⟨rfl, rfl, fun h => ?_⟩
  rw [show (CompletionEntry.asCompletionItem
      { CompletionEntry.default with
          name := "abc", sortText := "11", source := some "" }
      (fun _ => ⟨0, 0⟩) ⟨[], false, false, false, none, none⟩ ⟨false⟩
      "file:///a.ts" 0).sortText = some ("￿" ++ "11") from rfl] at h
  simp at h

/-- C6, amended.  The translated item's `sortText` is the entry's sort
text prefixed with U+FFFF iff the entry's `source` field is *present*
(the code checks presence, not non-emptiness); entries without a
source keep their sort text unchanged. -/
theorem c6_sort_text (e : CompletionEntry) (li : Nat → Position)
    (info : CompletionInfo) (settings : CompletionSettings)
    (specifier : String) (position : Nat) :
    (e.asCompletionItem li info settings specifier position).sortText =
      some (if e.source.isSome then "￿" ++ e.sortText else e.sortText) := by
  unfold CompletionEntry.asCompletionItem
  cases h : e.source <;> simp [h]

/-- C7.  The filter-text derivation: a bracket-accessor entry
`['foo']` inserting `['foo']` filters as `.foo`; a private `#abc`
entry with no insert text has no filter text; a `#abc` entry inserting
`this.#abc` filters as `abc`; and any entry without a `#`-prefixed
name whose insert text starts with `this.` has no filter text. -/
theorem c7_filter_text :
    CompletionEntry.getFilterText
        { CompletionEntry.default with
            kind := .memberVariableElement, name := "['foo']",
            insertText := some "['foo']" } = some ".foo" ∧
    CompletionEntry.getFilterText
        { CompletionEntry.default with
            kind := .memberVariableElement, name := "#abc" } = none ∧
    CompletionEntry.getFilterText
        { CompletionEntry.default with
            kind := .memberVariableElement, name := "#abc",
            insertText := some "this.#abc" } = some "abc" ∧
    ∀ e : CompletionEntry, strStartsWith e.name "#" = false →
      ∀ it : String, e.insertText = some it →
        strStartsWith it "this." = true → e.getFilterText = none := by
  refine ⟨by decide, by decide, by decide, ?_⟩
  intro e hname it hinsert hthis
  unfold CompletionEntry.getFilterText
  simp [hname, hinsert, hthis]

/-- Witness for `c7_filter_text` at a concrete `this.`-prefixed
insert text. -/
theorem c7_witness :
    CompletionEntry.getFilterText
        { CompletionEntry.default with
            name := "foo", insertText := some "this.foo" } = none :=
  c7_filter_text.2.2.2
    { CompletionEntry.default with name := "foo", insertText := some "this.foo" }
    (by decide) "this.foo" rfl (by decide)

/-- C8.  Commit characters: none at a new-identifier location; `.` and
`;` for the accessor/signature/enum/interface kinds; `.`, `,`, `;` for
the module/variable/class/function/keyword/parameter kinds, plus `(`
exactly when the "complete function calls" setting is off; none for
every other kind. -/
theorem c8_commit_characters (e : CompletionEntry) (info : CompletionInfo)
    (settings : CompletionSettings) :
    e.getCommitCharacters info settings =
      if info.isNewIdentifierLocation then
        none
      else
        (match e.kind with
        | .memberGetAccessorElement | .memberSetAccessorElement
        | .constructSignatureElement | .callSignatureElement
        | .indexSignatureElement | .enumElement | .interfaceElement =>
          some [".", ";"]
        | .moduleElement | .alias | .constElement | .letElement
        | .variableElement | .localVariableElement | .memberVariableElement
        | .classElement | .functionElement | .memberFunctionElement
        | .keyword | .parameterElement =>
          if settings.completeFunctionCalls then
            some [".", ",", ";"]
          else
            some [".", ",", ";", "("]
        | _ => none) := by
  unfold CompletionEntry.getCommitCharacters
  by_cases h : info.isNewIdentifierLocation <;> simp only [h, if_true, if_false]
  cases e.kind <;> cases hc : settings.completeFunctionCalls <;> simp [hc]

/-- C10.  Translating completion info is not total: with no `metadata`
the `isIncomplete` flag defaults to `false` and translation succeeds;
with a non-object `metadata`, or an object whose `isIncomplete` member
is not a boolean, the `unwrap`s panic (modelled as `none`). -/
theorem c10_metadata_totality :
    (∀ (entries : List CompletionEntry) (g m n : Bool)
        (ors : Option TextSpan) (li : Nat → Position)
        (settings : CompletionSettings) (specifier : String) (position : Nat),
      CompletionInfo.asCompletionResponse ⟨entries, g, m, n, none, ors⟩
          li settings specifier position =
        some (CompletionList.mk false (entries.map fun entry =>
          entry.asCompletionItem li ⟨entries, g, m, n, none, ors⟩
            settings specifier position))) ∧
    CompletionInfo.asCompletionResponse
        ⟨[], false, false, false, some (Value.str "not-an-object"), none⟩
        (fun _ => ⟨0, 0⟩) ⟨false⟩ "file:///a.ts" 0 = none ∧
    CompletionInfo.asCompletionResponse
        ⟨[], false, false, false,
          some (Value.obj [("isIncomplete", Value.str "yes")]), none⟩
        (fun _ => ⟨0, 0⟩) ⟨false⟩ "file:///a.ts" 0 = none := by
  exact ⟨fun _ _ _ _ _ _ _ _ _ => rfl, rfl, rfl⟩

theorem collectNavChildren_eq (li : Nat → Position) :
    ∀ cs : List NavigationTree,
      collectNavChildren li cs =
        cs.map fun c => (c, c.collectDocumentSymbols li)
  | [] => by simp [collectNavChildren]
  | c :: rest => by
    simp [collectNavChildren, collectNavChildren_eq li rest]

theorem collectChildrenFold_snd (range : TextRange) :
    ∀ (crs : List (NavigationTree × (List DocumentSymbol × Bool)))
      (acc : List DocumentSymbol × Bool),
      (collectChildrenFold range crs acc).2 =
        (acc.2 || crs.any fun cr => shouldTraverseChild range cr.1 && cr.2.2)
  | [], acc => by simp [collectChildrenFold]
  | (c, res) :: rest, acc => by
    by_cases htrav : shouldTraverseChild range c = true <;>
      simp [collectChildrenFold, htrav, collectChildrenFold_snd range rest,
        Bool.or_assoc]

theorem collectSymbolSpans_snd (li : Nat → Position) (t : NavigationTree)
    (crs : List (NavigationTree × (List DocumentSymbol × Bool))) :
    ∀ (spans : List TextSpan) (si : Bool),
      (collectSymbolSpans li t crs spans si).2 =
        (si || spans.any fun span =>
          crs.any fun cr =>
            shouldTraverseChild (TextRange.at span.start span.length) cr.1 &&
              cr.2.2)
  | [], si => by simp [collectSymbolSpans]
  | span :: rest, si => by
    simp [collectSymbolSpans, collectSymbolSpans_snd li t crs rest,
      collectChildrenFold_snd, Bool.or_assoc]

theorem listAny_map {α β : Type} (f : α → β) (p : β → Bool) :
    ∀ l : List α, (l.map f).any p = l.any fun a => p (f a)
  | [] => rfl
  | a :: rest => by simp [listAny_map f p rest]

theorem collectSymbolSpans_fst_ne_nil (li : Nat → Position)
    (t : NavigationTree)
    (crs : List (NavigationTree × (List DocumentSymbol × Bool))) :
    ∀ (spans : List TextSpan) (si : Bool), spans ≠ [] →
      ((collectSymbolSpans li t crs spans si).1 ≠ [] ↔
        (collectSymbolSpans li t crs spans si).2 = true)
  | [], _, h => absurd rfl h
  | [span], si, _ => by
    by_cases hc : (collectChildrenFold (TextRange.at span.start span.length)
        crs ([], si)).2 = true <;>
      simp [collectSymbolSpans, hc]
  | span :: next :: rest, si, _ => by
    by_cases hc : (collectChildrenFold (TextRange.at span.start span.length)
        crs ([], si)).2 = true
    · constructor
      · intro _
        show (collectSymbolSpans li t crs (span :: next :: rest) si).2 = true
        rw [collectSymbolSpans_snd]
        rw [collectChildrenFold_snd] at hc
        dsimp only at hc
        rcases Bool.or_eq_true _ _ |>.mp hc with h | h
        · simp only [h, Bool.true_or]
        · rw [List.any_cons]
          simp only [h, Bool.true_or, Bool.or_true]
      · intro _
        simp [collectSymbolSpans, hc]
    · rw [Bool.not_eq_true] at hc
      have ih := collectSymbolSpans_fst_ne_nil li t crs (next :: rest)
        (collectChildrenFold (TextRange.at span.start span.length)
          crs ([], si)).2 (by simp)
      rw [hc] at ih
      simp only [collectSymbolSpans, hc, Bool.false_eq_true, if_false,
        List.nil_append] at ih ⊢
      exact ih

theorem collectDocumentSymbols_snd_eq (li : Nat → Position)
    (t : NavigationTree) :
    (t.collectDocumentSymbols li).2 =
      if !t.shouldIncludeEntry && (t.childItems.map List.isEmpty).getD true then
        false
      else
        (t.shouldIncludeEntry || t.spans.any fun span =>
          (t.childItems.getD []).any fun c =>
            shouldTraverseChild (TextRange.at span.start span.length) c &&
              (c.collectDocumentSymbols li).2) := by
  by_cases h0 :
      (!t.shouldIncludeEntry &&
        (t.childItems.map List.isEmpty).getD true) = true
  · rw [NavigationTree.collectDocumentSymbols, if_pos h0, if_pos h0]
  · rw [NavigationTree.collectDocumentSymbols, if_neg h0, if_neg h0,
      collectSymbolSpans_snd, collectNavChildren_eq]
    simp only [listAny_map]

theorem collectDocumentSymbols_ne_nil_iff (li : Nat → Position)
    (t : NavigationTree) :
    (t.collectDocumentSymbols li).1 ≠ [] ↔
      (t.spans ≠ [] ∧ (t.shouldIncludeEntry = true ∨
        ∃ c ∈ t.childItems.getD [],
          (∃ span ∈ t.spans,
            shouldTraverseChild (TextRange.at span.start span.length) c = true) ∧
          (c.collectDocumentSymbols li).2 = true)) := by
  by_cases h0 :
      (!t.shouldIncludeEntry &&
        (t.childItems.map List.isEmpty).getD true) = true
  · rw [NavigationTree.collectDocumentSymbols, if_pos h0]
    simp only [ne_eq, not_true_eq_false, false_iff, not_and, not_or]
    have hsi : t.shouldIncludeEntry = false := by
      rcases Bool.and_eq_true .. ▸ h0 with ⟨hs, _⟩
      simpa using hs
    have hch : t.childItems.getD [] = [] := by
      rcases Bool.and_eq_true .. ▸ h0 with ⟨_, he⟩
      cases hci : t.childItems with
      | none => simp
      | some l =>
        rw [hci] at he
        simp at he
        simp [he]
    intro _
    simp [hsi, hch]
  · rw [NavigationTree.collectDocumentSymbols, if_neg h0]
    by_cases hsp : t.spans = []
    · rw [hsp]
      simp [collectSymbolSpans]
    · rw [collectSymbolSpans_fst_ne_nil li t _ t.spans t.shouldIncludeEntry hsp,
        collectSymbolSpans_snd, collectNavChildren_eq]
      simp only [listAny_map, Bool.or_eq_true, List.any_eq_true,
        Bool.and_eq_true, ne_eq, hsp, not_false_iff, true_and]
      constructor
      · rintro (hsi | ⟨span, hspan, c, hc, htrav, hflag⟩)
        · exact Or.inl hsi
        · exact Or.inr ⟨c, hc, ⟨span, hspan, htrav⟩, hflag⟩
      · rintro (hsi | ⟨c, hc, ⟨span, hspan, htrav⟩, hflag⟩)
        · exact Or.inl hsi
        · exact Or.inr ⟨span, hspan, c, hc, htrav, hflag⟩

/-- C5, counterexample.  The claim says a node is included iff its own
kind/text pass the entry predicate.  An `alias`-kind node is included
anyway when a child whose span intersects the node's span is included:
the translated symbol list for such a parent is non-empty although its
kind is `alias`. -/
theorem c5_counterexample :
    (NavigationTree.collectDocumentSymbols (fun _ => ⟨0, 0⟩)
        ⟨"p", .alias, "", [⟨0, 10⟩], none,
          some [⟨"y", .variableElement, "", [⟨2, 3⟩], none, none⟩]⟩).1 ≠ [] ∧
    NavigationTree.kind
        ⟨"p", .alias, "", [⟨0, 10⟩], none,
          some [⟨"y", .variableElement, "", [⟨2, 3⟩], none, none⟩]⟩ =
      .alias := by
  constructor
  · rw [collectDocumentSymbols_ne_nil_iff]
    refine ⟨by decide, Or.inr
      ⟨⟨"y", .variableElement, "", [⟨2, 3⟩], none, none⟩,
        by simp [NavigationTree.childItems],
        ⟨⟨0, 10⟩, by simp [NavigationTree.spans], by decide⟩, ?_⟩⟩
    rw [collectDocumentSymbols_snd_eq]
    decide
  · rfl

/-- C5, amended.  A navigation-tree node contributes at least one
document symbol iff it has at least one span and either its own entry
passes the predicate (kind is not `alias`, text non-empty and neither
`<function>` nor `<class>`), or some child owning a span that
intersects one of the node's spans is itself recursively flagged for
inclusion.  The entry predicate alone decides inclusion only for nodes
without traversed children, and a predicate-passing node with no spans
contributes nothing. -/
theorem c5_document_symbol_inclusion (li : Nat → Position)
    (t : NavigationTree) :
    (t.collectDocumentSymbols li).1 ≠ [] ↔
      (t.spans ≠ [] ∧ (t.shouldIncludeEntry = true ∨
        ∃ c ∈ t.childItems.getD [],
          (∃ span ∈ t.spans,
            shouldTraverseChild (TextRange.at span.start span.length) c = true) ∧
          (c.collectDocumentSymbols li).2 = true)) :=
  collectDocumentSymbols_ne_nil_iff li t

end DenoTsc

